import Mathlib

/-!
Shallow embedding of `src/pr_tracker.py` (class `PRTracker`), the
deduplication/state-tracking core of the merge-alert repository.

Modelling choices:
- Time is `Int` (seconds); `timedelta(days = d)` is `d * secondsPerDay`.
- A JSON record in the `prs` array is a `PREntry`: either a dict
  `{id, timestamp}` (`obj`), where a missing `id` field is `none` and the
  `timestamp` field is `none` when the field is missing, empty, or fails
  `datetime.fromisoformat` (all three paths skip the record identically in
  the source), or a bare integer (`legacy`).
- The filesystem is an `FS`: the backing file (`main`, which is absent,
  unparsable, or a parsed `PRData`) plus the sibling temporary file
  (`temp`).
- Exceptions raised by the filesystem during `save_seen_prs` are modelled
  by a `SaveOutcome` parameter chosen by the environment: success, failure
  after the temporary file is fully written but before the rename, or
  failure while writing the temporary file.  The Python code catches every
  exception, so each Lean operation is a total function; "never throws"
  claims hold by construction of the embedding.
-/

namespace MergeAlert

def secondsPerDay : Int := 86400

/-- One element of the `prs` array of the backing file. -/
inductive PREntry where
  | obj (id : Option Int) (timestamp : Option Int) : PREntry
  | legacy (id : Int) : PREntry
deriving DecidableEq, Repr

/-- The parsed contents of the backing file (`json.load` result). -/
structure PRData where
  version : String
  last_updated : Int
  prs : List PREntry
deriving DecidableEq, Repr

/-- State of the backing file at `storage_file`. -/
inductive FileState where
  | absent : FileState
  | corrupt : FileState
  | parsed (d : PRData) : FileState
deriving DecidableEq, Repr

/-- The filesystem as the store sees it: backing file plus the `.tmp` sibling. -/
structure FS where
  main : FileState
  temp : Option PRData
deriving DecidableEq, Repr

/-- The `prs` list of the backing file, empty when absent or unparsable. -/
def filePrs : FileState → List PREntry
  | .parsed d => d.prs
  | _ => []

/-- In-memory state of `PRTracker`: the `seen_prs` set of PR ids. -/
structure PRTracker where
  seen_prs : Finset Int
deriving DecidableEq

/-- `has_seen_pr`: pure membership test (line 107). -/
def has_seen_pr (t : PRTracker) (pr_id : Int) : Bool :=
  pr_id ∈ t.seen_prs

/-- `get_seen_count`: size of the in-memory set (line 118). -/
def get_seen_count (t : PRTracker) : Nat :=
  t.seen_prs.card

/-- The elements of a finset of ids listed in ascending order (insertion
sort, so that the kernel can evaluate it on concrete inputs). -/
def sortedIds (s : Finset Int) : List Int :=
  Quot.liftOn s.val (List.insertionSort (· ≤ ·)) fun a b h =>
    List.eq_of_perm_of_sorted
      ((List.perm_insertionSort _ a).trans (h.trans (List.perm_insertionSort _ b).symm))
      (List.sorted_insertionSort _ a) (List.sorted_insertionSort _ b)

/-- The list `prs_data` built by `save_seen_prs` (lines 78-81): every id of
the in-memory set, each paired with the single current timestamp.  Python
iterates the set in unspecified order; the model fixes the sorted order,
which is irrelevant to every property proved below. -/
def serializePrs (now : Int) (seen : Finset Int) : List PREntry :=
  (sortedIds seen).map (fun i => .obj (some i) (some now))

/-- Where an exception interrupts `save_seen_prs`, if anywhere. -/
inductive SaveOutcome where
  | ok : SaveOutcome
  | failAfterTempWrite : SaveOutcome
  | failDuringTempWrite : SaveOutcome
deriving DecidableEq, Repr

/-- Writing the serialized data to the `.tmp` sibling (lines 90-92). -/
def writeTempFile (now : Int) (seen : Finset Int) (fs : FS) : FS :=
  { fs with temp := some ⟨"1.0", now, serializePrs now seen⟩ }

/-- `os.rename(temp_file, self.storage_file)` (line 94). -/
def renameTempOverMain (fs : FS) : FS :=
  match fs.temp with
  | some d => ⟨.parsed d, none⟩
  | none => fs

/-- The exception handler's removal of a leftover `.tmp` file (lines 100-105). -/
def removeTempFile (fs : FS) : FS :=
  { fs with temp := none }

/-- `save_seen_prs` (lines 72-105): write the full current set to the
temporary file, rename it over the backing path; on failure remove the
leftover temporary file and leave the backing file as it was.  All
exceptions are caught, so the function is total and returns the resulting
filesystem. -/
def save_seen_prs (now : Int) (seen : Finset Int) (fs : FS) (o : SaveOutcome) : FS :=
  match o with
  | .ok => renameTempOverMain (writeTempFile now seen fs)
  | .failAfterTempWrite => removeTempFile (writeTempFile now seen fs)
  | .failDuringTempWrite => removeTempFile fs

/-- `mark_pr_as_seen` (lines 111-116): no-op when already seen, otherwise
insert into memory and save synchronously. -/
def mark_pr_as_seen (now : Int) (pr_id : Int) (t : PRTracker) (fs : FS)
    (o : SaveOutcome) : PRTracker × FS :=
  if pr_id ∈ t.seen_prs then (t, fs)
  else
    let t' : PRTracker := ⟨insert pr_id t.seen_prs⟩
    (t', save_seen_prs now t'.seen_prs fs o)

/-- One record of the load loop (lines 36-54): a dict contributes its id
only when the `id` field is present and truthy (nonzero), the `timestamp`
field is present, truthy and parseable, and the timestamp is at or after
the cutoff; a bare integer always contributes. -/
def loadEntry (cutoff : Int) : PREntry → Option Int
  | .obj (some i) (some ts) =>
      if i ≠ 0 then (if cutoff ≤ ts then some i else none) else none
  | .obj _ _ => none
  | .legacy i => some i

/-- The `valid_prs` set computed by `load_seen_prs` at time `now`
(cutoff = now - 30 days, lines 30-56). -/
def loadValidPrs (now : Int) (entries : List PREntry) : Finset Int :=
  (entries.filterMap (loadEntry (now - 30 * secondsPerDay))).toFinset

/-- `load_seen_prs` (lines 22-70): absent file leaves memory untouched;
an unparsable file degrades to the empty set; a parsed file yields
`valid_prs`, and when the resulting set's size differs from the record
list's length (line 61) the pruned set is saved back at once. -/
def load_seen_prs (now : Int) (t : PRTracker) (fs : FS) (o : SaveOutcome) :
    PRTracker × FS :=
  match fs.main with
  | .absent => (t, fs)
  | .corrupt => (⟨∅⟩, fs)
  | .parsed d =>
      let valid := loadValidPrs now d.prs
      (⟨valid⟩,
        if valid.card = d.prs.length then fs else save_seen_prs now valid fs o)

/-- In `cleanup_old_entries`, a dict whose timestamp is fresh is read with
`entry['id']` (line 142) with no presence check: a missing `id` field
raises `KeyError`, aborting the whole cleanup. -/
def cleanupRaisesKeyError (cutoff : Int) : PREntry → Bool
  | .obj none (some ts) => cutoff ≤ ts
  | _ => false

/-- One record of the cleanup loop (lines 133-147): a dict with a
parseable fresh timestamp contributes `entry['id']` (no truthiness check
on the id, unlike load); stale, missing or unparseable timestamps are
skipped; bare integers are kept. -/
def cleanupEntry (cutoff : Int) : PREntry → Option Int
  | .obj id (some ts) => if cutoff ≤ ts then id else none
  | .obj _ none => none
  | .legacy i => some i

/-- `cleanup_old_entries` (lines 122-158): re-read the backing file,
rebuild the set from it with the given age cutoff, replace memory with it
and save.  Absent or unparsable files, and a `KeyError` inside the loop,
leave both memory and file untouched (the exception is caught). -/
def cleanup_old_entries (now days : Int) (t : PRTracker) (fs : FS)
    (o : SaveOutcome) : PRTracker × FS :=
  match fs.main with
  | .parsed d =>
      if d.prs.any (cleanupRaisesKeyError (now - days * secondsPerDay)) then (t, fs)
      else
        let valid := (d.prs.filterMap (cleanupEntry (now - days * secondsPerDay))).toFinset
        (⟨valid⟩, save_seen_prs now valid fs o)
  | _ => (t, fs)

/-- One call of the store API within a process lifetime, with the save
outcomes the environment chooses for it. -/
inductive Op where
  | markOp (now pr_id : Int) (o : SaveOutcome) : Op
  | saveOp (now : Int) (o : SaveOutcome) : Op
  | cleanupOp (now days : Int) (o : SaveOutcome) : Op
  | loadOp (now : Int) (o : SaveOutcome) : Op
deriving DecidableEq, Repr

/-- Run one store operation on the (memory, filesystem) pair. -/
def stepOp (s : PRTracker × FS) : Op → PRTracker × FS
  | .markOp now pr_id o => mark_pr_as_seen now pr_id s.1 s.2 o
  | .saveOp now o => (s.1, save_seen_prs now s.1.seen_prs s.2 o)
  | .cleanupOp now days o => cleanup_old_entries now days s.1 s.2 o
  | .loadOp now o => load_seen_prs now s.1 s.2 o

/-- Run a sequence of store operations. -/
def runOps (s : PRTracker × FS) (ops : List Op) : PRTracker × FS :=
  ops.foldl stepOp s

/-- Operations that never rebuild the in-memory set from the backing file
(everything except `cleanup_old_entries` and `load_seen_prs`). -/
def keepsMemory : Op → Bool
  | .cleanupOp _ _ _ => false
  | .loadOp _ _ => false
  | _ => true

/-- A record that the load loop drops because its timestamp is older than
the cutoff (a well-formed `{id, timestamp}` record with truthy id). -/
def expiryDropped (cutoff : Int) (e : PREntry) : Prop :=
  ∃ i ts, e = PREntry.obj (some i) (some ts) ∧ i ≠ 0 ∧ ts < cutoff

/-! ### Helper lemmas -/

theorem mem_sortedIds (s : Finset Int) (i : Int) : i ∈ sortedIds s ↔ i ∈ s := by
  rcases s with ⟨m, hm⟩
  induction m using Quotient.inductionOn with
  | h l =>
    show i ∈ List.insertionSort (· ≤ ·) l ↔ _
    rw [(List.perm_insertionSort (· ≤ ·) l).mem_iff]
    simp [Finset.mem_mk]

theorem mem_serializePrs (now : Int) (seen : Finset Int) (e : PREntry) :
    e ∈ serializePrs now seen ↔ ∃ i ∈ seen, e = PREntry.obj (some i) (some now) := by
  simp only [serializePrs, List.mem_map, mem_sortedIds]
  constructor
  · rintro ⟨i, hi, rfl⟩; exact ⟨i, hi, rfl⟩
  · rintro ⟨i, hi, rfl⟩; exact ⟨i, hi, rfl⟩

theorem mem_loadValidPrs (now : Int) (entries : List PREntry) (i : Int) :
    i ∈ loadValidPrs now entries ↔
      ∃ e ∈ entries, loadEntry (now - 30 * secondsPerDay) e = some i := by
  simp [loadValidPrs, List.mem_filterMap]

theorem loadEntry_eq_some_iff (cutoff : Int) (e : PREntry) (i : Int) :
    loadEntry cutoff e = some i ↔
      (∃ ts, e = PREntry.obj (some i) (some ts) ∧ i ≠ 0 ∧ cutoff ≤ ts) ∨
        e = PREntry.legacy i := by
  cases e with
  | legacy j => simp [loadEntry, eq_comm]
  | obj oid ots =>
    cases oid with
    | none => simp [loadEntry]
    | some j =>
      cases ots with
      | none => simp [loadEntry]
      | some ts =>
        simp only [loadEntry]
        by_cases hj : j = 0
        · subst hj
          simp only [ne_eq, not_true_eq_false, if_false, reduceCtorEq, false_iff]
          rintro (⟨ts', heq, hi0, _⟩ | h)
          · cases heq; exact hi0 rfl
          · cases h
        · by_cases hts : cutoff ≤ ts
          · simp only [ne_eq, hj, not_false_eq_true, if_true, hts, Option.some.injEq]
            constructor
            · rintro rfl; exact Or.inl ⟨ts, rfl, hj, hts⟩
            · rintro (⟨ts', heq, _, _⟩ | h)
              · cases heq; rfl
              · cases h
          · simp only [ne_eq, hj, not_false_eq_true, if_true, hts, if_false, reduceCtorEq,
              false_iff]
            rintro (⟨ts', heq, _, hle⟩ | h)
            · cases heq; exact hts hle
            · cases h

theorem expiryDropped_loadEntry {cutoff : Int} {e : PREntry}
    (h : expiryDropped cutoff e) : loadEntry cutoff e = none := by
  rcases h with ⟨i, ts, rfl, hi, hts⟩
  simp [loadEntry, hi, not_le.mpr hts]

theorem length_filterMap_lt_of_none {α β : Type} {f : α → Option β} {l : List α} {e : α}
    (he : e ∈ l) (hf : f e = none) : (l.filterMap f).length < l.length := by
  induction l with
  | nil => cases he
  | cons a l ih =>
    rcases List.mem_cons.mp he with rfl | hmem
    · rw [List.filterMap_cons, hf]
      exact Nat.lt_succ_of_le (List.length_filterMap_le f l)
    · rw [List.filterMap_cons]
      cases hfa : f a with
      | none => exact Nat.lt_succ_of_lt (ih hmem)
      | some b => simpa using Nat.succ_lt_succ (ih hmem)

theorem mem_mark_self (now pr_id : Int) (t : PRTracker) (fs : FS) (o : SaveOutcome) :
    pr_id ∈ (mark_pr_as_seen now pr_id t fs o).1.seen_prs := by
  unfold mark_pr_as_seen
  split
  · assumption
  · exact Finset.mem_insert_self _ _

theorem mark_of_mem {pr_id : Int} {t : PRTracker} (now : Int) (fs : FS) (o : SaveOutcome)
    (h : pr_id ∈ t.seen_prs) : mark_pr_as_seen now pr_id t fs o = (t, fs) := by
  simp [mark_pr_as_seen, h]

/-! ### Claims -/

/-- Claim C1 (confirmed): for every id and store state, calling
`mark_pr_as_seen(id)` twice in succession leaves `get_seen_count()`
unchanged after the second call versus after the first, `has_seen_pr(id)`
is true after either call, and the second call is a no-op: it returns the
memory and the filesystem exactly as the first call left them, performing
no insertion and no persistence. -/
theorem C1_mark_twice_idempotent (now₁ now₂ pr_id : Int) (t : PRTracker) (fs : FS)
    (o₁ o₂ : SaveOutcome) :
    mark_pr_as_seen now₂ pr_id (mark_pr_as_seen now₁ pr_id t fs o₁).1
        (mark_pr_as_seen now₁ pr_id t fs o₁).2 o₂
      = mark_pr_as_seen now₁ pr_id t fs o₁ ∧
    has_seen_pr (mark_pr_as_seen now₁ pr_id t fs o₁).1 pr_id = true ∧
    get_seen_count (mark_pr_as_seen now₂ pr_id (mark_pr_as_seen now₁ pr_id t fs o₁).1
        (mark_pr_as_seen now₁ pr_id t fs o₁).2 o₂).1
      = get_seen_count (mark_pr_as_seen now₁ pr_id t fs o₁).1 := by
  have hmem := mem_mark_self now₁ pr_id t fs o₁
  have hnoop := mark_of_mem now₂ (mark_pr_as_seen now₁ pr_id t fs o₁).2 o₂ hmem
  refine ⟨hnoop, ?_, by rw [hnoop]⟩
  simp [has_seen_pr, hmem]

/-- Claim C5 (confirmed): `save_seen_prs` serializes the full current
entry set — version tag `"1.0"`, a `last_updated` timestamp, and one
`{id, timestamp}` record per id — to the temporary sibling path and then
renames it over the backing path; a failure after the temporary-file write
but before the replace leaves the previous backing file's contents
unchanged. -/
theorem C5_save_protocol_atomic (now : Int) (seen : Finset Int) (fs : FS) :
    (writeTempFile now seen fs).temp = some ⟨"1.0", now, serializePrs now seen⟩ ∧
    save_seen_prs now seen fs .ok = renameTempOverMain (writeTempFile now seen fs) ∧
    (save_seen_prs now seen fs .ok).main = .parsed ⟨"1.0", now, serializePrs now seen⟩ ∧
    (save_seen_prs now seen fs .failAfterTempWrite).main = fs.main :=
  ⟨rfl, rfl, rfl, rfl⟩

/-- Claim C6 (confirmed): loading from an existing but entirely unparsable
backing file yields an empty in-memory set and leaves the filesystem
untouched; the exception is caught (line 67), so the embedded
`load_seen_prs` is a total function — it never throws for any file
state. -/
theorem C6_corrupt_file_degrades_to_empty (now : Int) (t : PRTracker)
    (tmp : Option PRData) (o : SaveOutcome) :
    (load_seen_prs now t ⟨.corrupt, tmp⟩ o).1.seen_prs = ∅ ∧
    (load_seen_prs now t ⟨.corrupt, tmp⟩ o).2 = ⟨.corrupt, tmp⟩ :=
  ⟨rfl, rfl⟩

/-- Claim C7 (confirmed): when persistence fails during
`mark_pr_as_seen` of a new id — whether during the temporary-file write or
after it — no error propagates (the embedding is total because the code
catches every exception), the leftover temporary file is removed, the
backing file is unchanged, and the in-memory insertion is not rolled back:
`has_seen_pr` is true and `get_seen_count` is incremented. -/
theorem C7_failed_persist_keeps_memory (now pr_id : Int) (t : PRTracker) (fs : FS)
    (o : SaveOutcome) (hnew : pr_id ∉ t.seen_prs) (hfail : o ≠ .ok) :
    has_seen_pr (mark_pr_as_seen now pr_id t fs o).1 pr_id = true ∧
    get_seen_count (mark_pr_as_seen now pr_id t fs o).1 = get_seen_count t + 1 ∧
    (mark_pr_as_seen now pr_id t fs o).2.main = fs.main ∧
    (mark_pr_as_seen now pr_id t fs o).2.temp = none := by
  simp only [mark_pr_as_seen, if_neg hnew]
  refine ⟨by simp [has_seen_pr], ?_, ?_, ?_⟩
  · simp [get_seen_count, Finset.card_insert_of_not_mem hnew]
  · cases o with
    | ok => exact absurd rfl hfail
    | failAfterTempWrite => rfl
    | failDuringTempWrite => rfl
  · cases o with
    | ok => exact absurd rfl hfail
    | failAfterTempWrite => rfl
    | failDuringTempWrite => rfl

/-- Witness for C7 at a concrete input: id 9, empty store, absent backing
file, failure after the temporary-file write. -/
theorem C7_failed_persist_keeps_memory_witness :
    has_seen_pr (mark_pr_as_seen 0 9 ⟨∅⟩ ⟨.absent, none⟩ .failAfterTempWrite).1 9 = true ∧
    get_seen_count (mark_pr_as_seen 0 9 ⟨∅⟩ ⟨.absent, none⟩ .failAfterTempWrite).1
      = get_seen_count ⟨∅⟩ + 1 ∧
    (mark_pr_as_seen 0 9 ⟨∅⟩ ⟨.absent, none⟩ .failAfterTempWrite).2.main = FS.main ⟨.absent, none⟩ ∧
    (mark_pr_as_seen 0 9 ⟨∅⟩ ⟨.absent, none⟩ .failAfterTempWrite).2.temp = none :=
  C7_failed_persist_keeps_memory 0 9 ⟨∅⟩ ⟨.absent, none⟩ .failAfterTempWrite
    (by decide) (by decide)

/-- Claim C10 (confirmed): at load, a dict record whose `id` field is
missing or 0, or whose `timestamp` field is missing, empty or unparseable,
is silently dropped — unlike a bare-integer record, which is kept; in
particular marking id 0 on a fresh store, persisting successfully, and
constructing a fresh store from the same backing path yields
`has_seen_pr(0) = false`. -/
theorem C10_falsy_records_dropped :
    (∀ cutoff ts, loadEntry cutoff (.obj none ts) = none) ∧
    (∀ cutoff ts, loadEntry cutoff (.obj (some 0) ts) = none) ∧
    (∀ cutoff i, loadEntry cutoff (.obj (some i) none) = none) ∧
    (∀ cutoff i, loadEntry cutoff (.legacy i) = some i) ∧
    (∀ now now' : Int, ∀ fs : FS, ∀ o : SaveOutcome,
      has_seen_pr (load_seen_prs now' ⟨∅⟩ (mark_pr_as_seen now 0 ⟨∅⟩ fs .ok).2 o).1 0
        = false) := by
  refine ⟨fun cutoff ts => by cases ts <;> rfl, fun cutoff ts => ?_,
    fun cutoff i => rfl, fun cutoff i => rfl, fun now now' fs o => rfl⟩
  cases ts with
  | none => rfl
  | some ts => simp [loadEntry]

/-- Claim C2 counterexample: the store whose set is `{0}`, persisted
successfully at time 0 and reloaded at time 0 (so nothing is expired),
loads back as the empty set, not as the original set `{0}` — the claimed
round trip fails for identifier 0. -/
theorem C2_counterexample :
    (0 : Int) ∈ ({0} : Finset Int) ∧
    (load_seen_prs 0 ⟨∅⟩ (save_seen_prs 0 ({0} : Finset Int) ⟨.absent, none⟩ .ok) .ok).1.seen_prs
      = (∅ : Finset Int) ∧
    (load_seen_prs 0 ⟨∅⟩ (save_seen_prs 0 ({0} : Finset Int) ⟨.absent, none⟩ .ok) .ok).1.seen_prs
      ≠ ({0} : Finset Int) := by
  decide

/-- Claim C2 amended: persisting a store via `save_seen_prs` at time `now`
and constructing a fresh tracker from the same backing path at time `now'`
yields the original identifiers that are nonzero and non-expired at load
time (all saved records carry timestamp `now`, so either all survive or
all expire); identifier 0 is dropped at load because the code treats a
falsy `id` field as invalid. -/
theorem C2_roundtrip_amended (now now' : Int) (seen : Finset Int) (fs : FS)
    (o : SaveOutcome) :
    (load_seen_prs now' ⟨∅⟩ (save_seen_prs now seen fs .ok) o).1.seen_prs
      = seen.filter (fun i => i ≠ 0 ∧ now' - 30 * secondsPerDay ≤ now) := by
  show loadValidPrs now' (serializePrs now seen) = _
  ext i
  simp only [mem_loadValidPrs, Finset.mem_filter]
  constructor
  · rintro ⟨e, he, hsome⟩
    rw [mem_serializePrs] at he
    rcases he with ⟨j, hj, rfl⟩
    rcases (loadEntry_eq_some_iff _ _ _).mp hsome with ⟨ts, heq, hi0, hle⟩ | h
    · cases heq
      exact ⟨hj, hi0, by linarith⟩
    · cases h
  · rintro ⟨hi, hi0, hle⟩
    refine ⟨PREntry.obj (some i) (some now), (mem_serializePrs _ _ _).mpr ⟨i, hi, rfl⟩, ?_⟩
    exact (loadEntry_eq_some_iff _ _ _).mpr (Or.inl ⟨now, rfl, hi0, by linarith⟩)

/-- Claim C3 counterexample: a record whose timestamp is exactly 30 days
old (`now - timestamp = retentionWindow`, not `<` it) is retained by the
load — the code keeps records with `timestamp >= cutoff`, so the claimed
strict-inequality characterization fails at the boundary. -/
theorem C3_counterexample :
    (load_seen_prs (30 * secondsPerDay) ⟨∅⟩
        ⟨.parsed ⟨"1.0", 0, [.obj (some 5) (some 0)]⟩, none⟩ .ok).1.seen_prs
      = ({5} : Finset Int) ∧
    ¬ (30 * secondsPerDay - 0 < 30 * secondsPerDay) := by
  decide

/-- Claim C3 amended: after a load of a parseable backing file, the
in-memory set contains id `i` exactly when some record is either a dict
`{id : i, timestamp : ts}` with `i ≠ 0` and `now - ts ≤ retentionWindow`
(inclusive bound: the code keeps `timestamp >= cutoff`) or the bare
integer `i`; and whenever some well-formed dict record was dropped due to
expiry, the pruned set is immediately persisted back to the backing
file. -/
theorem C3_load_amended :
    (∀ now : Int, ∀ entries : List PREntry, ∀ i : Int,
      i ∈ loadValidPrs now entries ↔
        ∃ e ∈ entries,
          (∃ ts, e = PREntry.obj (some i) (some ts) ∧ i ≠ 0 ∧
            now - ts ≤ 30 * secondsPerDay) ∨ e = PREntry.legacy i) ∧
    (∀ now : Int, ∀ d : PRData, ∀ tmp : Option PRData,
      (∃ e ∈ d.prs, expiryDropped (now - 30 * secondsPerDay) e) →
        (load_seen_prs now ⟨∅⟩ ⟨.parsed d, tmp⟩ .ok).2
          = save_seen_prs now (loadValidPrs now d.prs) ⟨.parsed d, tmp⟩ .ok) := by
  constructor
  · intro now entries i
    rw [mem_loadValidPrs]
    constructor
    · rintro ⟨e, he, hsome⟩
      refine ⟨e, he, ?_⟩
      rcases (loadEntry_eq_some_iff _ _ _).mp hsome with ⟨ts, heq, hi0, hle⟩ | h
      · exact Or.inl ⟨ts, heq, hi0, by linarith⟩
      · exact Or.inr h
    · rintro ⟨e, he, ⟨ts, heq, hi0, hle⟩ | h⟩
      · exact ⟨e, he, (loadEntry_eq_some_iff _ _ _).mpr (Or.inl ⟨ts, heq, hi0, by linarith⟩)⟩
      · exact ⟨e, he, (loadEntry_eq_some_iff _ _ _).mpr (Or.inr h)⟩
  · rintro now d tmp ⟨e, he, hdrop⟩
    have hnone := expiryDropped_loadEntry hdrop
    have hlt : (loadValidPrs now d.prs).card < d.prs.length :=
      lt_of_le_of_lt (List.toFinset_card_le _) (length_filterMap_lt_of_none he hnone)
    simp [load_seen_prs, Nat.ne_of_lt hlt]

/-- Witness for C3 at a concrete input: a file holding one record 62 days
old at load time; the load persists the pruned (empty) set back. -/
theorem C3_load_amended_witness :
    (load_seen_prs (62 * secondsPerDay) ⟨∅⟩
        ⟨.parsed ⟨"1.0", 0, [.obj (some 5) (some 0)]⟩, none⟩ .ok).2
      = save_seen_prs (62 * secondsPerDay)
          (loadValidPrs (62 * secondsPerDay) [.obj (some 5) (some 0)])
          ⟨.parsed ⟨"1.0", 0, [.obj (some 5) (some 0)]⟩, none⟩ .ok :=
  C3_load_amended.2 (62 * secondsPerDay) ⟨"1.0", 0, [.obj (some 5) (some 0)]⟩ none
    ⟨.obj (some 5) (some 0), by decide, 5, 0, rfl, by decide, by decide⟩

/-- Claim C4 counterexample: after `mark_pr_as_seen(5)` at time 0 the
durable copy pairs 5 with timestamp 0; after a later
`mark_pr_as_seen(6)` at time 100 the durable copy pairs 5 with
timestamp 100 and no longer with 0 — marking a different identifier does
update the timestamp of an already-seen identifier in the durable copy. -/
theorem C4_counterexample :
    (PREntry.obj (some 5) (some 0) ∈
      filePrs (mark_pr_as_seen 0 5 ⟨∅⟩ ⟨.absent, none⟩ .ok).2.main) ∧
    (PREntry.obj (some 5) (some 100) ∈
      filePrs (mark_pr_as_seen 100 6 (mark_pr_as_seen 0 5 ⟨∅⟩ ⟨.absent, none⟩ .ok).1
        (mark_pr_as_seen 0 5 ⟨∅⟩ ⟨.absent, none⟩ .ok).2 .ok).2.main) ∧
    (PREntry.obj (some 5) (some 0) ∉
      filePrs (mark_pr_as_seen 100 6 (mark_pr_as_seen 0 5 ⟨∅⟩ ⟨.absent, none⟩ .ok).1
        (mark_pr_as_seen 0 5 ⟨∅⟩ ⟨.absent, none⟩ .ok).2 .ok).2.main) := by
  decide

/-- Claim C4 amended: the in-memory store keeps no per-id timestamps, so
each successful persist pairs every identifier with the single persist
time (`current_time` at line 75) rather than with the time the id was
first recorded; re-marking an already-seen identifier is still a no-op
that performs no persistence and therefore changes no durable
timestamp. -/
theorem C4_timestamps_amended :
    (∀ now : Int, ∀ seen : Finset Int, ∀ e : PREntry,
      e ∈ serializePrs now seen ↔ ∃ i ∈ seen, e = PREntry.obj (some i) (some now)) ∧
    (∀ now pr_id : Int, ∀ t : PRTracker, ∀ fs : FS, ∀ o : SaveOutcome,
      pr_id ∈ t.seen_prs → mark_pr_as_seen now pr_id t fs o = (t, fs)) :=
  ⟨mem_serializePrs, fun now _ _ fs o h => mark_of_mem now fs o h⟩

/-- Witness for C4 amended at a concrete input: re-marking 5 on a store
already holding 5 changes neither memory nor filesystem. -/
theorem C4_timestamps_amended_witness :
    mark_pr_as_seen 0 5 ⟨{5}⟩ ⟨.absent, none⟩ .ok = (⟨{5}⟩, ⟨.absent, none⟩) :=
  C4_timestamps_amended.2 0 5 ⟨{5}⟩ ⟨.absent, none⟩ .ok (by decide)

/-- Claim C8 counterexample: id 7 is stored in legacy bare-integer form
and survives the initial load; marking id 8 then persists, rewriting 7 as
a `{id : 7, timestamp : 0}` record, and a reload 31 days later removes 7
by timestamp-based pruning — so a legacy id is not retained throughout
sequences that include an intervening persist and reload. -/
theorem C8_counterexample :
    (has_seen_pr (load_seen_prs 0 ⟨∅⟩ ⟨.parsed ⟨"1.0", 0, [.legacy 7]⟩, none⟩ .ok).1 7
       = true) ∧
    (has_seen_pr
      (load_seen_prs (31 * secondsPerDay) ⟨∅⟩
        (mark_pr_as_seen 0 8
          (load_seen_prs 0 ⟨∅⟩ ⟨.parsed ⟨"1.0", 0, [.legacy 7]⟩, none⟩ .ok).1
          (load_seen_prs 0 ⟨∅⟩ ⟨.parsed ⟨"1.0", 0, [.legacy 7]⟩, none⟩ .ok).2 .ok).2 .ok).1 7
       = false) := by
  decide

/-- Claim C8 amended: a legacy bare-integer record is retained
unconditionally by a single load and by the `cleanup_old_entries` loop,
regardless of age; but any successful persist serializes every id as a
`{id, timestamp}` record stamped with the persist time, so after an
intervening persist the id is subject to timestamp-based pruning on later
loads. -/
theorem C8_legacy_amended :
    (∀ now : Int, ∀ entries : List PREntry, ∀ i : Int,
      PREntry.legacy i ∈ entries → i ∈ loadValidPrs now entries) ∧
    (∀ cutoff i : Int, cleanupEntry cutoff (.legacy i) = some i) ∧
    (∀ now : Int, ∀ seen : Finset Int, ∀ e : PREntry,
      e ∈ serializePrs now seen → ∃ i, e = PREntry.obj (some i) (some now)) := by
  refine ⟨?_, fun cutoff i => rfl, ?_⟩
  · intro now entries i he
    exact (mem_loadValidPrs _ _ _).mpr
      ⟨PREntry.legacy i, he, (loadEntry_eq_some_iff _ _ _).mpr (Or.inr rfl)⟩
  · intro now seen e he
    rcases (mem_serializePrs _ _ _).mp he with ⟨i, _, rfl⟩
    exact ⟨i, rfl⟩

/-- Witness for C8 amended at a concrete input: the legacy record 7 in a
one-record file is in the loaded set at any load time, here 40 days. -/
theorem C8_legacy_amended_witness :
    (7 : Int) ∈ loadValidPrs (40 * secondsPerDay) [.legacy 7] :=
  C8_legacy_amended.1 (40 * secondsPerDay) [.legacy 7] 7 (by decide)

/-- Claim C9 counterexample: on a store whose backing file parses to an
empty record list, `mark_pr_as_seen(9)` whose persist fails leaves 9 seen
in memory; a subsequent `cleanup_old_entries` rebuilds memory from the
backing file (which never received 9) and `has_seen_pr(9)` becomes false
within the same process lifetime. -/
theorem C9_counterexample :
    (has_seen_pr
      (mark_pr_as_seen 0 9 ⟨∅⟩ ⟨.parsed ⟨"1.0", 0, []⟩, none⟩ .failAfterTempWrite).1 9
        = true) ∧
    (has_seen_pr
      (cleanup_old_entries 0 30
        (mark_pr_as_seen 0 9 ⟨∅⟩ ⟨.parsed ⟨"1.0", 0, []⟩, none⟩ .failAfterTempWrite).1
        (mark_pr_as_seen 0 9 ⟨∅⟩ ⟨.parsed ⟨"1.0", 0, []⟩, none⟩ .failAfterTempWrite).2
        .ok).1 9
        = false) := by
  decide

/-- Claim C9 amended: once `mark_pr_as_seen(id)` has completed, every
later `has_seen_pr(id)` returns true across any subsequent sequence of
`mark_pr_as_seen` and `save_seen_prs` calls (failed persists included);
the exceptions are `cleanup_old_entries` and `load_seen_prs`, which
replace memory with a set rebuilt from the backing file and can forget an
id whose persist failed or whose durable record expired. -/
theorem C9_seen_persists_amended (now pr_id : Int) (t : PRTracker) (fs : FS)
    (o : SaveOutcome) (ops : List Op) (h : ∀ op ∈ ops, keepsMemory op = true) :
    has_seen_pr (runOps (mark_pr_as_seen now pr_id t fs o) ops).1 pr_id = true := by
  suffices hgen : ∀ ops : List Op, (∀ op ∈ ops, keepsMemory op = true) →
      ∀ s : PRTracker × FS, pr_id ∈ s.1.seen_prs →
        pr_id ∈ (runOps s ops).1.seen_prs by
    simpa [has_seen_pr] using
      hgen ops h (mark_pr_as_seen now pr_id t fs o) (mem_mark_self now pr_id t fs o)
  intro ops hops
  induction ops with
  | nil => intro s hs; exact hs
  | cons op ops ih =>
    intro s hs
    have hop : keepsMemory op = true := hops op (List.mem_cons_self op ops)
    have hrest : ∀ op ∈ ops, keepsMemory op = true :=
      fun op' h' => hops op' (List.mem_cons_of_mem _ h')
    have hstep : pr_id ∈ (stepOp s op).1.seen_prs := by
      cases op with
      | markOp now' id' o' =>
        show pr_id ∈ (mark_pr_as_seen now' id' s.1 s.2 o').1.seen_prs
        unfold mark_pr_as_seen
        split
        · exact hs
        · exact Finset.mem_insert_of_mem hs
      | saveOp now' o' => exact hs
      | cleanupOp now' days' o' => exact absurd hop (by simp [keepsMemory])
      | loadOp now' o' => exact absurd hop (by simp [keepsMemory])
    exact ih hrest (stepOp s op) hstep

/-- Witness for C9 amended at a concrete input: mark 9, then a failed
save and a mark of a different id; 9 is still seen. -/
theorem C9_seen_persists_amended_witness :
    has_seen_pr
      (runOps (mark_pr_as_seen 0 9 ⟨∅⟩ ⟨.absent, none⟩ .ok)
        [.saveOp 5 .failAfterTempWrite, .markOp 6 12 .ok]).1 9 = true :=
  C9_seen_persists_amended 0 9 ⟨∅⟩ ⟨.absent, none⟩ .ok
    [.saveOp 5 .failAfterTempWrite, .markOp 6 12 .ok] (by decide)

end MergeAlert
